import Mathlib

/-!
Shallow embedding of the core of the Blockchain_Simulation_A2 node
(src/transaction.py, src/models.py, src/consensus.py, src/blockchain.py)
and proofs checking the specification claims against it.

Modelling conventions:
* Python dicts become association lists over `String` keys; assignment
  updates an existing key in place and otherwise appends (`dinsert`).
* Python floats (transaction amounts, balances) become `ℚ`; all amounts
  occurring in the programs of interest are exactly representable.
* SHA-256 and JSON serialisation are kept abstract: every function that
  hashes takes a digest function `sha : String → String` and a
  serialiser (`tdumps : TxDict → String` for transaction dicts,
  `bdumps : BlockCanon → String` for the canonical block dict) as
  explicit parameters.  No claim in scope depends on the concrete
  digest values, only on which bytes are hashed and how results are
  compared; concrete instantiations are supplied where a claim is
  evaluated on explicit inputs.
* Ed25519 signature verification (PyNaCl) is abstract as
  `ed : Transaction → Bool`, the outcome of verifying the canonical
  transaction bytes under the sender key; the hex well-formedness
  checks that PyNaCl performs before any cryptography are modelled
  concretely, since control flow (exception vs boolean) depends on them.
-/

namespace PyChain

/-! ## Python dict primitives (association lists) -/

/-- Python dict assignment `m[k] = v`: update the existing binding in
place, else append a new one. -/
def dinsert {α : Type} (k : String) (v : α) : List (String × α) → List (String × α)
  | [] => [(k, v)]
  | (a, b) :: rest => if a = k then (k, v) :: rest else (a, b) :: dinsert k v rest

/-- Python dict lookup `m[k]` / `k in m` support. -/
def dlookup {α : Type} (k : String) : List (String × α) → Option α
  | [] => none
  | (a, b) :: rest => if a = k then some b else dlookup k rest

/-- Python membership test `k in m`. -/
def dcontains {α : Type} (k : String) (m : List (String × α)) : Bool :=
  (dlookup k m).isSome

/-- Python `m.get(k, d)`. -/
def dgetD {α : Type} (m : List (String × α)) (k : String) (d : α) : α :=
  (dlookup k m).getD d

/-- The dict comprehension `{pub: addr for addr, pub in public_keys.items()}`
(blockchain.py lines 107, 153, 282): invert an address→pubkey map, later
entries overriding earlier ones exactly as repeated dict assignment does. -/
def invert (m : List (String × String)) : List (String × String) :=
  m.foldl (fun acc p => dinsert p.2 p.1 acc) []

/-! ## Transactions (src/transaction.py) -/

/-- A transaction object (transaction.py lines 7–13).  `signature` is
`none` for the Python `None`. -/
structure Transaction where
  sender : String
  recipient : String
  amount : ℚ
  timestamp : Int
  signature : Option String
deriving DecidableEq

/-- The dict form a transaction serialises to.  `signature = none`
represents an absent "signature" key. -/
structure TxDict where
  sender : String
  recipient : String
  amount : ℚ
  timestamp : Int
  signature : Option String
deriving DecidableEq

/-- `Transaction.to_dict` with the default `include_signature=True`
(transaction.py lines 15–24): the signature key is included only when
`self.signature` is truthy, so both `None` and the empty string are
dropped. -/
def Transaction.to_dict (t : Transaction) : TxDict :=
  { sender := t.sender
    recipient := t.recipient
    amount := t.amount
    timestamp := t.timestamp
    signature := match t.signature with
      | none => none
      | some s => if s = "" then none else some s }

/-- `Transaction.from_dict` (transaction.py lines 47–55) composed with the
constructor (lines 8–13).  The constructor runs
`self.timestamp = timestamp or int(time.time())`, so a timestamp of `0`
(falsy in Python) is replaced by the current time `now`. -/
def Transaction.from_dict (now : Int) (d : TxDict) : Transaction :=
  { sender := d.sender
    recipient := d.recipient
    amount := d.amount
    timestamp := if d.timestamp = 0 then now else d.timestamp
    signature := d.signature }

/-! ### `Transaction.verify` (transaction.py lines 34–45)

The method catches only `BadSignatureError`; the hex decoding done by
`VerifyKey(self.sender, encoder=HexEncoder)` and
`HexEncoder.decode(self.signature)` and PyNaCl's signature length check
raise other exceptions that propagate to the caller.  `PyVerify` makes
that control flow explicit. -/

/-- Outcome of a Python call that either returns a bool or raises. -/
inductive PyVerify where
  | ok (b : Bool)
  | raised (msg : String)
deriving DecidableEq

/-- A hexadecimal digit as accepted by `binascii.unhexlify` (both cases). -/
def isHexDigitChar (c : Char) : Bool :=
  (Char.ofNat 48 ≤ c ∧ c ≤ Char.ofNat 57) ∨
  (Char.ofNat 97 ≤ c ∧ c ≤ Char.ofNat 102) ∨
  (Char.ofNat 65 ≤ c ∧ c ≤ Char.ofNat 70)

/-- Byte length of `binascii.unhexlify` of a string, `none` when the
string is not well-formed hex (odd length or a non-hex character), in
which case PyNaCl's hex decoding raises. -/
def unhexlifyLen (s : String) : Option Nat :=
  if s.length % 2 = 0 ∧ s.toList.all isHexDigitChar then some (s.length / 2) else none

/-- `Transaction.verify` (transaction.py lines 34–45).  A falsy signature
(`None` or the empty string) returns `False`.  Then, inside the `try`:
`VerifyKey(sender, HexEncoder)` raises unless the sender decodes to a
32-byte key; `HexEncoder.decode(signature)` raises on malformed hex;
PyNaCl's `verify` raises unless the decoded signature is 64 bytes; only
`BadSignatureError` is caught (returning `False`), a successful
verification returns `True`.  `ed t` abstracts the Ed25519 verification
outcome on the canonical bytes. -/
def Transaction.verify (ed : Transaction → Bool) (t : Transaction) : PyVerify :=
  match t.signature with
  | none => PyVerify.ok false
  | some s =>
    if s = "" then PyVerify.ok false
    else if unhexlifyLen t.sender ≠ some 32 then
      PyVerify.raised "VerifyKey rejects the sender key"
    else
      match unhexlifyLen s with
      | none => PyVerify.raised "hex decoding of the signature fails"
      | some n =>
        if n ≠ 64 then PyVerify.raised "the signature must be exactly 64 bytes long"
        else PyVerify.ok (ed t)

/-! ## Blocks (src/models.py) -/

/-- A block object (models.py lines 5–27).  The constructor's
`merkle_root or self.calculate_merkle_root()` default is modelled at the
construction sites (`Block.from_dict`). -/
structure Block where
  mined_by : String
  transactions : List Transaction
  height : Int
  difficulty : Int
  hash : String
  previous_hash : String
  nonce : Int
  timestamp : Int
  merkle_root : String
deriving DecidableEq

/-- The canonical dict hashed by `Block.calculate_hash` (models.py lines
53–62): every block field except `hash`, with transactions in dict form. -/
structure BlockCanon where
  mined_by : String
  transactions : List TxDict
  height : Int
  difficulty : Int
  previous_hash : String
  nonce : Int
  timestamp : Int
  merkle_root : String
deriving DecidableEq

/-- The dict produced by `Block.to_dict` (models.py lines 66–80):
the canonical fields plus the stored `hash`. -/
structure BlockDict where
  mined_by : String
  transactions : List TxDict
  height : Int
  difficulty : Int
  hash : String
  previous_hash : String
  nonce : Int
  timestamp : Int
  merkle_root : String
deriving DecidableEq

/-- Python `"0" * difficulty` (empty for a non-positive difficulty). -/
def zeroRun (d : Int) : String :=
  String.mk (List.replicate d.toNat (Char.ofNat 48))

/-- Python `s.startswith(p)`: `p` is a prefix of `s` (on the character
lists, which is the same notion for our strings). -/
def startswith (s p : String) : Bool :=
  p.toList.isPrefixOf s.toList

/-! ### Merkle root (models.py lines 29–47)

The `while` loop is rendered as well-founded recursion on the level
length.  The list comprehension
`[sha256((tx_hashes[i] + tx_hashes[i+1]).encode()).hexdigest() for i in range(0, len(tx_hashes), 2)]`
is transcribed index-for-index by `pairHash`; `range(0, n, 2)` has
`(n + 1) / 2` elements.  The odd-level duplication
`tx_hashes.append(tx_hashes[-1])` is `dupLast`. -/

/-- Append a copy of the last element when the level has odd length. -/
def dupLast (l : List String) : List String :=
  if l.length % 2 = 1 then l ++ [l.getLastD ""] else l

/-- One level of pairing: hash the concatenation of each adjacent pair,
indexed exactly like the Python comprehension.  Only ever applied to
even-length (padded) levels; the `getD` default is never read there. -/
def pairHash (sha : String → String) (l : List String) : List String :=
  (List.range ((l.length + 1) / 2)).map
    (fun i => sha (l.getD (2 * i) "" ++ l.getD (2 * i + 1) ""))

/-- The `while len(tx_hashes) > 1` loop of `calculate_merkle_root`,
returning `tx_hashes[0]` when one digest remains. -/
def merkleFold (sha : String → String) (l : List String) : String :=
  if _h : 1 < l.length then merkleFold sha (pairHash sha (dupLast l)) else l.headD ""
termination_by l.length
decreasing_by
  simp only [pairHash, dupLast, List.length_map, List.length_range]
  split
  case isTrue => simp only [List.length_append, List.length_cons, List.length_nil]; omega
  case isFalse => omega

/-- `Block.calculate_merkle_root` (models.py lines 29–47) as a function of
the transaction list: leaf digests are `sha` of each transaction's
sorted-keys JSON dict form (`tdumps` abstracts `json.dumps` with
`sort_keys=True`), the empty list hashes the empty byte string, and
otherwise the level fold runs to a single digest. -/
def calculate_merkle_root (sha : String → String) (tdumps : TxDict → String)
    (txs : List Transaction) : String :=
  let tx_hashes := txs.map (fun t => sha (tdumps t.to_dict))
  if tx_hashes = [] then sha "" else merkleFold sha tx_hashes

/-- The canonical dict `Block.calculate_hash` serialises (models.py lines
53–62). -/
def Block.block_canon (b : Block) : BlockCanon :=
  { mined_by := b.mined_by
    transactions := b.transactions.map Transaction.to_dict
    height := b.height
    difficulty := b.difficulty
    previous_hash := b.previous_hash
    nonce := b.nonce
    timestamp := b.timestamp
    merkle_root := b.merkle_root }

/-- `Block.calculate_hash` (models.py lines 49–64): SHA-256 of the
sorted-keys JSON of the canonical dict, with `sha` the digest and
`bdumps` the serialiser kept abstract. -/
def Block.calculate_hash (sha : String → String) (bdumps : BlockCanon → String)
    (b : Block) : String :=
  sha (bdumps b.block_canon)

/-- `Block.to_dict` (models.py lines 66–80). -/
def Block.to_dict (b : Block) : BlockDict :=
  { mined_by := b.mined_by
    transactions := b.transactions.map Transaction.to_dict
    height := b.height
    difficulty := b.difficulty
    hash := b.hash
    previous_hash := b.previous_hash
    nonce := b.nonce
    timestamp := b.timestamp
    merkle_root := b.merkle_root }

/-- `Block.from_dict` (models.py lines 82–96) composed with the
constructor (lines 7–27): transactions are rebuilt through
`Transaction.from_dict` (which re-stamps falsy timestamps with `now`),
and the constructor's `merkle_root or self.calculate_merkle_root()`
recomputes the root when the stored one is falsy (empty). -/
def Block.from_dict (sha : String → String) (tdumps : TxDict → String) (now : Int)
    (d : BlockDict) : Block :=
  let transactions := d.transactions.map (Transaction.from_dict now)
  { mined_by := d.mined_by
    transactions := transactions
    height := d.height
    difficulty := d.difficulty
    hash := d.hash
    previous_hash := d.previous_hash
    nonce := d.nonce
    timestamp := d.timestamp
    merkle_root := if d.merkle_root = "" then calculate_merkle_root sha tdumps transactions
      else d.merkle_root }

/-- The invariant the source constructors establish on every object they
produce: `Transaction.__init__` replaces a falsy (zero) timestamp with
`int(time.time())`, so no transaction object ever carries timestamp 0,
and `Block.__init__` replaces a falsy `merkle_root` with
`self.calculate_merkle_root()`, a SHA-256 hex digest, so no block object
ever carries an empty root; no code mutates either attribute afterwards.
Every block the program can hold therefore satisfies this predicate. -/
def Block.constructor_invariant (b : Block) : Prop :=
  (∀ t ∈ b.transactions, t.timestamp ≠ 0) ∧ b.merkle_root ≠ ""

/-! ## Block and chain validation (src/blockchain.py lines 213–249) -/

/-- `Blockchain.is_valid_block` (blockchain.py lines 213–228) with the
predecessor passed explicitly (the `previous_block=False` default resolves
to the latest chain block at the call site).  The four checks, in source
order: recomputed hash, predecessor link, difficulty prefix, height. -/
def is_valid_block (sha : String → String) (bdumps : BlockCanon → String)
    (block previous_block : Block) : Bool :=
  if block.hash ≠ block.calculate_hash sha bdumps then false
  else if block.previous_hash ≠ previous_block.hash then false
  else if ¬ startswith block.hash (zeroRun block.difficulty) then false
  else if block.height ≠ previous_block.height + 1 then false
  else true

/-- The `for i in range(1, len(chain))` loop of `is_valid_chain`
(blockchain.py lines 236–248), walking the chain with the previous block
carried along; returns the first failure's `(False, reason)` or
`(True, "OK")`. -/
def is_valid_chain_loop (sha : String → String) (bdumps : BlockCanon → String) :
    Block → List Block → Bool × String
  | _, [] => (true, "OK")
  | previous, current :: rest =>
    if current.hash ≠ current.calculate_hash sha bdumps then
      (false, "Invalid hash in block #" ++ toString current.height)
    else if current.previous_hash ≠ previous.hash then
      (false, "Chain broken at block #" ++ toString current.height)
    else if ¬ startswith current.hash (zeroRun current.difficulty) then
      (false, "Difficulty not met in block #" ++ toString current.height)
    else if current.height ≠ previous.height + 1 then
      (false, "Invalid height sequence at block #" ++ toString current.height)
    else if current.timestamp ≤ previous.timestamp then
      (false, "Invalid timestamp for block #" ++ toString current.height ++
        ". Must be after previous block.")
    else is_valid_chain_loop sha bdumps current rest

/-- `Blockchain.is_valid_chain` (blockchain.py lines 230–249) on a resolved
chain argument (the `chain = chain or self.chain` defaulting is applied at
call sites). -/
def is_valid_chain (sha : String → String) (bdumps : BlockCanon → String)
    (chain : List Block) : Bool × String :=
  match chain with
  | [] => (false, "Empty chain")
  | genesis :: rest =>
    if genesis.height ≠ 0 ∨ genesis.previous_hash ≠ "0" then (false, "Invalid genesis block")
    else is_valid_chain_loop sha bdumps genesis rest

/-! ## Difficulty retargeting (src/consensus.py lines 63–80) -/

/-- Placeholder block for the never-read defaults of guarded list
accesses. -/
def dummyBlock : Block :=
  { mined_by := ""
    transactions := []
    height := 0
    difficulty := 0
    hash := ""
    previous_hash := ""
    nonce := 0
    timestamp := 0
    merkle_root := "" }

/-- `Consensus.adjust_difficulty` (consensus.py lines 63–80).  Python's
`actual_time < expected_time / 2` is true float division on exactly
representable integers, modelled as the rational comparison; the second
guard `actual_time > expected_time * 2` is an integer comparison.  The
guard `length < adjustment_interval + 1` keeps every list index in
bounds, so the `dummyBlock` defaults are never read. -/
def adjust_difficulty (target_block_time : Int) (adjustment_interval : Nat)
    (min_difficulty : Int) (chain : List Block) : Int :=
  let length := chain.length
  if length < adjustment_interval + 1 then
    match chain.getLast? with
    | some b => b.difficulty
    | none => min_difficulty
  else
    let last_adjustment_block := chain.getD (length - adjustment_interval - 1) dummyBlock
    let latest_block := chain.getD (length - 1) dummyBlock
    let actual_time := latest_block.timestamp - last_adjustment_block.timestamp
    let expected_time := (adjustment_interval : Int) * target_block_time
    let difficulty := latest_block.difficulty
    if (actual_time : ℚ) < (expected_time : ℚ) / 2 then difficulty + 1
    else if actual_time > expected_time * 2 ∧ difficulty > min_difficulty then difficulty - 1
    else difficulty

/-! ## Node state (the attributes of `Blockchain`, blockchain.py lines 27–34) -/

/-- The mutable state of a node that the claims in scope touch.
`initial_wallet_balances` is `none` while the Python attribute does not
exist yet (it is created lazily by `create_wallet` and
`rebuild_balances`). -/
structure NodeState where
  chain : List Block
  pending_transactions : List Transaction
  balances : List (String × ℚ)
  wallets : List (String × String)
  public_keys : List (String × String)
  initial_wallet_balances : Option (List (String × ℚ))
  difficulty : Int
deriving DecidableEq

/-- The scan `for addr, pub in self.public_keys.items(): ...` closing
`get_balance` (blockchain.py lines 92–94). -/
def get_balance_scan (bal : List (String × ℚ)) : List (String × String) → String → ℚ
  | [], _ => 0
  | (addr, pub) :: rest, address =>
    if pub = address ∧ dcontains addr bal then dgetD bal addr 0
    else get_balance_scan bal rest address

/-- `Blockchain.get_balance` (blockchain.py lines 79–96): direct balance
key first, then the address→pubkey indirection, then the pubkey→address
scan, else 0. -/
def get_balance (st : NodeState) (address : String) : ℚ :=
  match dlookup address st.balances with
  | some v => v
  | none =>
    match dlookup address st.public_keys with
    | some public_key =>
      match dlookup public_key st.balances with
      | some v => v
      | none => get_balance_scan st.balances st.public_keys address
    | none => get_balance_scan st.balances st.public_keys address

/-! ## Mempool admission (src/blockchain.py lines 98–139) -/

/-- The transaction rebuilt by
`self.transaction_schema.validate_transaction_dict(tx.to_dict())`
(blockchain.py line 101): the marshmallow schema re-runs the
`Transaction` constructor on the dict form, which re-stamps a falsy
timestamp; structural field checks cannot fail on a typed transaction. -/
def validated_tx (now : Int) (tx : Transaction) : Transaction :=
  Transaction.from_dict now tx.to_dict

/-- `sum(t.amount for t in self.pending_transactions if pubkey_to_address.get(t.sender, t.sender) == sender_addr)`
(blockchain.py lines 120–121). -/
def pending_spend (p2a : List (String × String)) (pending : List Transaction)
    (sender_addr : String) : ℚ :=
  ((pending.filter (fun t => dgetD p2a t.sender t.sender = sender_addr)).map
    (fun t => t.amount)).sum

/-- `sender_addr = pubkey_to_address.get(validated_tx.sender, validated_tx.sender)`
(blockchain.py line 114): the balance key admission resolves the sender
to. -/
def sender_addr (now : Int) (st : NodeState) (tx : Transaction) : String :=
  dgetD (invert st.public_keys) (validated_tx now tx).sender (validated_tx now tx).sender

/-- `Blockchain.add_transaction` (blockchain.py lines 98–139).  Failures
(schema, signature, unknown sender, insufficient balance, pending-pool
double spend) are raised and caught, returning `False` with the state
untouched; success appends the original transaction to the pending pool
(`save_to_disk` catches its own errors and never mutates this state).
`v` abstracts the outcome of `validated_tx.verify()`, with an exception
escaping `verify` also landing in the `False` branch. -/
def add_transaction (v : Transaction → Bool) (now : Int) (st : NodeState)
    (tx : Transaction) : Bool × NodeState :=
  if v (validated_tx now tx) = false then (false, st)
  else if ¬ dcontains (validated_tx now tx).sender (invert st.public_keys) then (false, st)
  else if get_balance st (sender_addr now st tx) < (validated_tx now tx).amount then (false, st)
  else if get_balance st (sender_addr now st tx) -
      pending_spend (invert st.public_keys) st.pending_transactions (sender_addr now st tx)
      < tx.amount then (false, st)
  else (true, { st with pending_transactions := st.pending_transactions ++ [tx] })

/-! ## Balance rebuild (src/blockchain.py lines 277–362) -/

/-- The sender debit of one chain transaction (blockchain.py lines
306–315): resolve the sender through the pubkey→address map, debit only
when the resolved key is already present in the balance index, else log
a warning and leave the index untouched. -/
def applyDebit (p2a : List (String × String)) (bal : List (String × ℚ))
    (tx : Transaction) : List (String × ℚ) :=
  if tx.sender ≠ "COINBASE" then
    match dlookup (dgetD p2a tx.sender tx.sender) bal with
    | some old_balance => dinsert (dgetD p2a tx.sender tx.sender) (old_balance - tx.amount) bal
    | none => bal
  else bal

/-- Recipient resolution (blockchain.py lines 318–347). -/
def resolveRecipient (p2a wallets : List (String × String)) (tx : Transaction) : String :=
  if tx.sender = "COINBASE" then
    if dcontains tx.recipient wallets then tx.recipient
    else if dcontains tx.recipient p2a then dgetD p2a tx.recipient ""
    else tx.recipient
  else
    if dcontains tx.recipient p2a then dgetD p2a tx.recipient ""
    else if dcontains tx.recipient wallets then tx.recipient
    else tx.recipient

/-- The recipient credit (blockchain.py lines 349–353); the
`if recipient_addr:` guard skips a falsy (empty) resolved key. -/
def applyCredit (p2a wallets : List (String × String)) (bal : List (String × ℚ))
    (tx : Transaction) : List (String × ℚ) :=
  let recipient_addr := resolveRecipient p2a wallets tx
  if recipient_addr ≠ "" then
    dinsert recipient_addr (dgetD bal recipient_addr 0 + tx.amount) bal
  else bal

/-- Processing of one chain transaction during the rebuild: debit then
credit. -/
def applyTx (p2a wallets : List (String × String)) (bal : List (String × ℚ))
    (tx : Transaction) : List (String × ℚ) :=
  applyCredit p2a wallets (applyDebit p2a bal tx) tx

/-- `Blockchain.rebuild_balances` (blockchain.py lines 277–362): clear the
index, seed every wallet address with its initial balance (creating the
`initial_wallet_balances` attribute with 100.0 defaults when absent),
walk every transaction of every block, and restore any wallet address
that ended up missing. -/
def rebuild_balances (st : NodeState) : NodeState :=
  let p2a := invert st.public_keys
  let iwb := match st.initial_wallet_balances with
    | some m => m
    | none => st.wallets.foldl (fun m p => dinsert p.1 (100 : ℚ) m) []
  let seeded := st.wallets.foldl (fun b p => dinsert p.1 (dgetD iwb p.1 100) b) []
  let processed := st.chain.foldl
    (fun b blk => blk.transactions.foldl (applyTx p2a st.wallets) b) seeded
  let final := st.wallets.foldl
    (fun b p => if dcontains p.1 b then b else dinsert p.1 (dgetD iwb p.1 100) b) processed
  { st with balances := final, initial_wallet_balances := some iwb }

/-! ## Chain synchronisation (src/blockchain.py lines 252–275) -/

/-- One peer's `/chain` response: HTTP status, the reported `length`
field, and the serialised blocks; `none` at the call site stands for a
request that raised `RequestException`. -/
structure PeerResp where
  status_code : Int
  length : Int
  chain : List BlockDict
deriving DecidableEq

/-- Python truthiness of a 2-tuple: `bool((b, s))` is `True` for every
pair, because only the empty tuple is falsy.  This is the value of
`if self.is_valid_chain(peer_chain):` in `sync_chain` (blockchain.py
line 265), which tests the `(bool, reason)` tuple itself rather than its
first component (contrast `mine_block`, line 147, which unpacks it). -/
def pyTruthyPair (_p : Bool × String) : Bool := true

/-- The peer loop of `sync_chain` (blockchain.py lines 257–269), carrying
`max_length` and the best chain so far (`none` for the initial
`longest_chain = False`).  A peer chain is deserialised with
`Block.from_dict` and kept whenever its reported length beats
`max_length`, the `is_valid_chain` tuple being always truthy; the
`chain or self.chain` defaulting inside `is_valid_chain` is applied to
the argument. -/
def sync_scan (sha : String → String) (tdumps : TxDict → String)
    (bdumps : BlockCanon → String) (now : Int) (selfChain : List Block) :
    List (Option PeerResp) → Int → Option (List Block) → Option (List Block)
  | [], _, best => best
  | none :: rest, max_length, best => sync_scan sha tdumps bdumps now selfChain rest max_length best
  | some r :: rest, max_length, best =>
    if r.status_code = 200 ∧ r.length > max_length then
      let peer_chain := r.chain.map (Block.from_dict sha tdumps now)
      if pyTruthyPair (is_valid_chain sha bdumps
          (if peer_chain = [] then selfChain else peer_chain)) then
        sync_scan sha tdumps bdumps now selfChain rest r.length (some peer_chain)
      else sync_scan sha tdumps bdumps now selfChain rest max_length best
    else sync_scan sha tdumps bdumps now selfChain rest max_length best

/-- `Blockchain.sync_chain` (blockchain.py lines 252–275): scan the
peers, then — `if longest_chain:` being Python truthiness, so a
non-`False`, non-empty list — replace the chain, rebuild balances and
persist. -/
def sync_chain (sha : String → String) (tdumps : TxDict → String)
    (bdumps : BlockCanon → String) (now : Int) (st : NodeState)
    (peers : List (Option PeerResp)) : NodeState :=
  match sync_scan sha tdumps bdumps now st.chain peers (st.chain.length : Int) none with
  | some longest_chain =>
    if longest_chain ≠ [] then rebuild_balances { st with chain := longest_chain } else st
  | none => st

/-! ## The post-validation tail of `mine_block` (src/blockchain.py lines 191–209) -/

/-- What `mine_block` does once the freshly mined block has passed the
schema validation: append it, drop the mined user transaction from the
pending pool by signature, rebuild balances, and retarget the difficulty
with `Consensus.adjust_difficulty(self.chain)` (default parameters
`target_block_time=10`, `adjustment_interval=10`, `min_difficulty=1`). -/
def mine_append (st : NodeState) (validated_block : Block) : NodeState :=
  let st1 := { st with chain := st.chain ++ [validated_block] }
  let mined_user := validated_block.transactions.filter (fun t => t.sender ≠ "COINBASE")
  let st2 := match mined_user with
    | [] => st1
    | mined_tx :: _ =>
      { st1 with pending_transactions :=
          st1.pending_transactions.filter (fun t => t.signature ≠ mined_tx.signature) }
  let st3 := rebuild_balances st2
  { st3 with difficulty := adjust_difficulty 10 10 1 st3.chain }

/-! ## Reference computations worded after the specification

These definitions transcribe the specification's prose (spec §4.1 Merkle
root, §4.3 difficulty retarget, §4.4 admission) rather than the Python
source; the refinement theorems below compare them with the embedded
code. -/

/-- One Merkle level as the spec words it: pair adjacent digests,
duplicating the last digest when the level has an odd count, concatenate
each pair and re-hash. -/
def spec_level (sha : String → String) : List String → List String
  | [] => []
  | [a] => [sha (a ++ a)]
  | a :: b :: rest => sha (a ++ b) :: spec_level sha rest

/-- Repeat `spec_level` until one digest remains; the pass counter is an
upper bound on the number of passes (each pass at least halves a level
of two or more digests, so the initial length suffices). -/
def spec_passes (sha : String → String) : Nat → List String → List String
  | 0, l => l
  | n + 1, l => if l.length ≤ 1 then l else spec_passes sha n (spec_level sha l)

/-- The claim's reference Merkle computation: SHA-256 hex digests of each
transaction's sorted-keys JSON dict form; SHA-256 of the empty byte
string for an empty list; otherwise fold levels to a single digest. -/
def spec_merkle_root (sha : String → String) (tdumps : TxDict → String)
    (txs : List Transaction) : String :=
  match txs.map (fun t => sha (tdumps t.to_dict)) with
  | [] => sha ""
  | leaves => (spec_passes sha leaves.length leaves).headD ""

/-- The difficulty retarget as the claim states it: unchanged (the last
block's difficulty) below `adjustment_interval + 1` blocks, else `+1`
when `actual < expected / 2`, `−1` when `actual > expected * 2` and the
difficulty exceeds the minimum, unchanged otherwise. -/
def spec_adjust_difficulty (target_block_time : Int) (adjustment_interval : Nat)
    (min_difficulty : Int) (chain : List Block) : Int :=
  let latest := chain.getLastD dummyBlock
  if chain.length < adjustment_interval + 1 then latest.difficulty
  else
    let anchor := chain.getD (chain.length - adjustment_interval - 1) dummyBlock
    let actual : Int := latest.timestamp - anchor.timestamp
    let expected : Int := (adjustment_interval : Int) * target_block_time
    if (actual : ℚ) < (expected : ℚ) / 2 then latest.difficulty + 1
    else if (expected : ℚ) * 2 < (actual : ℚ) ∧ min_difficulty < latest.difficulty then
      latest.difficulty - 1
    else latest.difficulty

/-- All admission steps of `add_transaction` succeeding: signature check,
known sender, funds check, and pending-pool double-spend check. -/
def admission_ok (v : Transaction → Bool) (now : Int) (st : NodeState)
    (tx : Transaction) : Prop :=
  v (validated_tx now tx) = true ∧
  dcontains (validated_tx now tx).sender (invert st.public_keys) = true ∧
  (validated_tx now tx).amount ≤ get_balance st (sender_addr now st tx) ∧
  tx.amount ≤ get_balance st (sender_addr now st tx) -
    pending_spend (invert st.public_keys) st.pending_transactions (sender_addr now st tx)

/-- PyNaCl accepts a verify key iff its hex form decodes to 32 bytes. -/
def hex_key_ok (x : String) : Bool := unhexlifyLen x = some 32

/-- PyNaCl accepts a signature iff its hex form decodes to 64 bytes. -/
def hex_sig_ok (x : String) : Bool := unhexlifyLen x = some 64

/-! ## Concrete instantiations used to evaluate claims on explicit inputs -/

/-- A degenerate digest function; valid for exercising control flow that
does not depend on digest values. -/
def sha0 : String → String := fun _ => ""

/-- A degenerate transaction-dict serialiser. -/
def tdumps0 : TxDict → String := fun _ => ""

/-- A degenerate canonical-block serialiser. -/
def bdumps0 : BlockCanon → String := fun _ => ""

/-- A digest function whose outputs are never empty, as SHA-256 hex
digests (always 64 characters) never are. -/
def shaNE : String → String := fun _ => "d"

/-- A signature verifier outcome that always succeeds. -/
def edTrue : Transaction → Bool := fun _ => true

/-- A signature verifier outcome that always fails. -/
def edFalse : Transaction → Bool := fun _ => false

/-- Local genesis block of the C1 scenario (difficulty 0, so the prefix
rule is vacuous under the degenerate digest). -/
def gBlockC1 : Block :=
  { mined_by := "genesis", transactions := [], height := 0, difficulty := 0, hash := ""
    previous_hash := "0", nonce := 0, timestamp := 1, merkle_root := "m" }

/-- Node state holding only that genesis block. -/
def stC1 : NodeState :=
  { chain := [gBlockC1], pending_transactions := [], balances := [], wallets := []
    public_keys := [], initial_wallet_balances := some [], difficulty := 4 }

/-- First block of the invalid peer chain: height 1 at position 0, so the
chain fails the genesis rule of `is_valid_chain`. -/
def badDict1 : BlockDict :=
  { mined_by := "x", transactions := [], height := 1, difficulty := 0, hash := "h1"
    previous_hash := "p1", nonce := 0, timestamp := 2, merkle_root := "m" }

/-- Second block of the invalid peer chain. -/
def badDict2 : BlockDict :=
  { mined_by := "x", transactions := [], height := 2, difficulty := 0, hash := "h2"
    previous_hash := "h1", nonce := 0, timestamp := 3, merkle_root := "m" }

/-- A peer response reporting length 3 for a two-block invalid chain. -/
def respC1 : PeerResp :=
  { status_code := 200, length := 3, chain := [badDict1, badDict2] }

/-- Predecessor block of the C2 scenario (timestamp 5). -/
def pC2 : Block :=
  { mined_by := "", transactions := [], height := 0, difficulty := 0, hash := ""
    previous_hash := "0", nonce := 0, timestamp := 5, merkle_root := "m" }

/-- Successor block with the same timestamp as its predecessor, passing
the four checks of `is_valid_block` under the degenerate digest. -/
def bC2 : Block :=
  { mined_by := "", transactions := [], height := 1, difficulty := 0, hash := ""
    previous_hash := "", nonce := 0, timestamp := 5, merkle_root := "m" }

/-- A successor with a strictly larger timestamp, making `[pC2, bW2]`
pass full chain validation under the degenerate digest. -/
def bW2 : Block :=
  { mined_by := "", transactions := [], height := 1, difficulty := 0, hash := ""
    previous_hash := "", nonce := 0, timestamp := 6, merkle_root := "m" }

/-- A chain-stored transaction from a sender unknown to the node. -/
def txC3 : Transaction :=
  { sender := "S", recipient := "R", amount := 5, timestamp := 1, signature := none }

/-- A block carrying that transaction. -/
def blkC3 : Block :=
  { mined_by := "", transactions := [txC3], height := 1, difficulty := 0, hash := ""
    previous_hash := "", nonce := 0, timestamp := 2, merkle_root := "m" }

/-- Node state whose chain holds the unknown-sender transaction and whose
wallet registry is empty. -/
def stC3 : NodeState :=
  { chain := [blkC3], pending_transactions := [], balances := [], wallets := []
    public_keys := [], initial_wallet_balances := some [], difficulty := 4 }

/-- A transaction whose sender is not a registered public key. -/
def txC4 : Transaction :=
  { sender := "S", recipient := "R", amount := 10, timestamp := 3, signature := some "sig" }

/-- Node state with an ample balance recorded under the raw sender string
but an empty public-key registry. -/
def stC4 : NodeState :=
  { chain := [], pending_transactions := [], balances := [("S", 100)], wallets := []
    public_keys := [], initial_wallet_balances := some [], difficulty := 4 }

/-- A transaction whose sender hex is malformed and whose signature is
present, driving `verify` into the uncaught-exception path. -/
def txC8 : Transaction :=
  { sender := "COINBASE", recipient := "r", amount := 10, timestamp := 5
    signature := some "abab" }

/-- A 64-hex-character sender key (32 bytes). -/
def senderGood : String :=
  "aaaaaaaaaaaaaaaaaaaaaaaaaaaaaaaaaaaaaaaaaaaaaaaaaaaaaaaaaaaaaaaa"

/-- A 128-hex-character signature (64 bytes). -/
def sigGood : String :=
  String.append "aaaaaaaaaaaaaaaaaaaaaaaaaaaaaaaaaaaaaaaaaaaaaaaaaaaaaaaaaaaaaaaa"
    "aaaaaaaaaaaaaaaaaaaaaaaaaaaaaaaaaaaaaaaaaaaaaaaaaaaaaaaaaaaaaaaa"

/-- A transaction whose sender and signature are well-formed hex of the
right lengths. -/
def txGood : Transaction :=
  { sender := senderGood, recipient := "r", amount := 1, timestamp := 1
    signature := some sigGood }

/-- A transaction with a nonzero timestamp, as the constructor
guarantees. -/
def tx9b : Transaction :=
  { sender := "s", recipient := "r", amount := 1, timestamp := 7, signature := none }

/-- A well-formed single-transaction block for the C9 witness. -/
def bW9 : Block :=
  { mined_by := "", transactions := [tx9b], height := 0, difficulty := 0, hash := "H"
    previous_hash := "0", nonce := 0, timestamp := 5, merkle_root := "m" }

/-- A block at difficulty 4, above the default minimum difficulty. -/
def bD4 : Block :=
  { mined_by := "", transactions := [], height := 0, difficulty := 4, hash := ""
    previous_hash := "0", nonce := 0, timestamp := 5, merkle_root := "m" }

/-- Node state with one registered wallet (address "A", public key "PK")
holding balance 100. -/
def stC7w : NodeState :=
  { chain := [], pending_transactions := [], balances := [("A", 100)], wallets := []
    public_keys := [("A", "PK")], initial_wallet_balances := some [], difficulty := 4 }

/-- A transaction from the registered public key, within its balance. -/
def txC7w : Transaction :=
  { sender := "PK", recipient := "R", amount := 10, timestamp := 3, signature := some "sg" }

/-! ## Helper lemmas -/

theorem dlookup_dinsert_self {α : Type} (k : String) (v : α) :
    ∀ m : List (String × α), dlookup k (dinsert k v m) = some v := by
  intro m
  induction m with
  | nil => simp [dinsert, dlookup]
  | cons p rest ih =>
    obtain ⟨a, b⟩ := p
    by_cases h : a = k
    · simp [dinsert, dlookup, h]
    · simp [dinsert, dlookup, h, ih]

theorem getD_length_sub_one {α : Type} (l : List α) (d : α) :
    l.getD (l.length - 1) d = l.getLastD d := by
  rw [List.getD_eq_getElem?_getD, List.getLastD_eq_getLast?, List.getLast?_eq_getElem?]

/-- When the chain-validation loop succeeds, the timestamps along the
walked blocks strictly increase. -/
theorem valid_loop_timestamps (sha : String → String) (bdumps : BlockCanon → String) :
    ∀ (rest : List Block) (prev : Block),
      (is_valid_chain_loop sha bdumps prev rest).1 = true →
      List.Chain' (fun x y => x.timestamp < y.timestamp) (prev :: rest) := by
  intro rest
  induction rest with
  | nil => intro prev _; simp
  | cons cur rest ih =>
    intro prev h
    rw [is_valid_chain_loop] at h
    split_ifs at h with h1 h2 h3 h4 h5
    rw [List.chain'_cons]
    exact ⟨lt_of_not_le h5, ih cur h⟩

/-! ## Claim C1 -/

/-- C1: the claim says `sync_chain` replaces the local chain only when
the peer's reported length matches the fetched chain and the fetched
chain passes `is_valid_chain`, leaving the chain unchanged on any
validation failure.  Evaluating the embedded code on the failing input
(a peer reporting length 3 for a two-block chain that fails validation
at its genesis): the chain is replaced anyway, because the
`(bool, reason)` tuple returned by `is_valid_chain` is truthy as a
tuple, and the reported length is never compared with the fetched
blocks. -/
theorem C1_sync_chain_adopts_unvalidated_chain :
    (sync_chain sha0 tdumps0 bdumps0 5 stC1 [some respC1]).chain ≠ stC1.chain ∧
    (is_valid_chain sha0 bdumps0
      (sync_chain sha0 tdumps0 bdumps0 5 stC1 [some respC1]).chain).1 = false ∧
    respC1.length = 3 ∧
    ((sync_chain sha0 tdumps0 bdumps0 5 stC1 [some respC1]).chain.length : Int) = 2 := by
  refine ⟨by decide, by decide, by decide, by decide⟩

/-! ## Claim C2 -/

/-- C2 counterexample: a block whose timestamp equals its predecessor's
passes `is_valid_block` (the single-block validator has no timestamp
check), refuting the claim that it rejects any such block. -/
theorem C2_counterexample :
    is_valid_block sha0 bdumps0 bC2 pC2 = true ∧ bC2.timestamp ≤ pC2.timestamp := by
  refine ⟨by decide, by decide⟩

/-- C2 as amended: block-validation rule 5 (strictly increasing
timestamps) is enforced by the full-chain validator `is_valid_chain`,
but the single-block validator `is_valid_block` checks exactly the four
rules hash, predecessor link, difficulty prefix and height, and accepts
blocks regardless of the timestamp relation. -/
theorem C2_amended_validators (sha : String → String) (bdumps : BlockCanon → String)
    (c : List Block) (b p : Block) :
    ((is_valid_chain sha bdumps c).1 = true →
      List.Chain' (fun x y => x.timestamp < y.timestamp) c) ∧
    (is_valid_block sha bdumps b p = true ↔
      (b.hash = b.calculate_hash sha bdumps ∧ b.previous_hash = p.hash ∧
       startswith b.hash (zeroRun b.difficulty) = true ∧ b.height = p.height + 1)) := by
  constructor
  · intro h
    match c with
    | [] => simp [is_valid_chain] at h
    | genesis :: rest =>
      rw [is_valid_chain] at h
      split_ifs at h
      exact valid_loop_timestamps sha bdumps rest genesis h
  · unfold is_valid_block
    split_ifs with h1 h2 h3 h4 <;> simp_all

/-- C2 witness: applying the amended theorem to a concrete two-block
chain that passes full validation yields its strict timestamp
increase. -/
theorem C2_witness :
    (is_valid_chain sha0 bdumps0 [pC2, bW2]).1 = true ∧
    List.Chain' (fun x y => x.timestamp < y.timestamp) [pC2, bW2] :=
  ⟨by decide, (C2_amended_validators sha0 bdumps0 [pC2, bW2] dummyBlock dummyBlock).1 (by decide)⟩

/-! ## Claim C3 -/

/-- C3 counterexample: rebuilding balances over a chain holding a
transaction from the unknown sender "S" leaves "S" absent from the
balance index (the debit is dropped with a warning), instead of the
claimed balance of `-amount`; the recipient is still credited. -/
theorem C3_counterexample :
    txC3.sender ≠ "COINBASE" ∧
    dlookup "S" (rebuild_balances stC3).balances = none ∧
    dlookup "R" (rebuild_balances stC3).balances = some 5 := by
  refine ⟨by decide, ?_, ?_⟩ <;>
    · norm_num [rebuild_balances, applyTx, applyCredit, applyDebit, resolveRecipient,
        invert, dinsert, dlookup, dcontains, dgetD, stC3, blkC3, txC3]
      try decide

/-- C3 as amended: during `rebuild_balances` the sender debit applies
exactly when the resolved sender key is already present in the balance
index; for a previously unseen sender key the debit is skipped (a
warning is logged) and the index is left unchanged by the debit step. -/
theorem C3_amended_debit (p2a : List (String × String)) (bal : List (String × ℚ))
    (tx : Transaction) (old : ℚ) (h : tx.sender ≠ "COINBASE") :
    (dlookup (dgetD p2a tx.sender tx.sender) bal = none → applyDebit p2a bal tx = bal) ∧
    (dlookup (dgetD p2a tx.sender tx.sender) bal = some old →
      dlookup (dgetD p2a tx.sender tx.sender) (applyDebit p2a bal tx) =
        some (old - tx.amount)) := by
  constructor
  · intro hnone
    unfold applyDebit
    rw [if_pos h, hnone]
  · intro hsome
    unfold applyDebit
    rw [if_pos h, hsome]
    exact dlookup_dinsert_self (dgetD p2a tx.sender tx.sender) (old - tx.amount) bal

/-- C3 witness: the amended debit rule applied to a sender key present
with balance 7 and a transaction of amount 5. -/
theorem C3_witness :
    dlookup (dgetD [] txC3.sender txC3.sender) (applyDebit [] [("S", (7 : ℚ))] txC3) =
      some (7 - txC3.amount) :=
  (C3_amended_debit [] [("S", (7 : ℚ))] txC3 7 (by decide)).2 (by decide)

/-! ## Claim C4 -/

/-- C4 counterexample: a transaction whose sender is not a registered
public key is rejected by `add_transaction` with the state unchanged,
even though the balance recorded under the raw sender string amply
covers the amount — refuting the claim that such a transaction is
admitted via the raw-sender balance key. -/
theorem C4_counterexample :
    add_transaction edTrue 1 stC4 txC4 = (false, stC4) ∧
    get_balance stC4 txC4.sender = 100 ∧
    txC4.amount ≤ get_balance stC4 txC4.sender ∧
    dlookup txC4.sender stC4.public_keys = none := by
  refine ⟨by decide, by decide, by decide, by decide⟩

/-- C4 as amended: `add_transaction` rejects every transaction whose
sender is not a value of the node's public-key registry — returning
false with the state unchanged — regardless of the balances; the
raw-sender fallback of `pubkey_to_address.get(sender, sender)` is
unreachable for unknown senders because of the preceding membership
check. -/
theorem C4_amended_unknown_sender_rejected (v : Transaction → Bool) (now : Int)
    (st : NodeState) (tx : Transaction)
    (h : dcontains tx.sender (invert st.public_keys) = false) :
    add_transaction v now st tx = (false, st) := by
  unfold add_transaction
  split_ifs with h1 h2 h3 h4 <;> try rfl
  exact absurd h2 (by simp [validated_tx, Transaction.from_dict, Transaction.to_dict, h])

/-- C4 witness: the amended rejection rule applied to the concrete state
with an empty registry. -/
theorem C4_witness :
    add_transaction edTrue 1 stC4 txC4 = (false, stC4) ∧
    dcontains txC4.sender (invert stC4.public_keys) = false :=
  ⟨C4_amended_unknown_sender_rejected edTrue 1 stC4 txC4 (by decide), by decide⟩

/-! ## Claim C8 -/

/-- C8 counterexample: `verify` on a transaction whose sender is not
well-formed hex propagates the PyNaCl exception (only
`BadSignatureError` is caught), whatever the Ed25519 outcome — refuting
the claim that `verify` never raises. -/
theorem C8_counterexample :
    Transaction.verify edTrue txC8 = PyVerify.raised "VerifyKey rejects the sender key" ∧
    Transaction.verify edFalse txC8 = PyVerify.raised "VerifyKey rejects the sender key" := by
  refine ⟨by decide, by decide⟩

/-- C8 as amended: `verify` returns false on a missing or empty
signature; when the sender decodes as a 32-byte hex key and the
signature as well-formed 64-byte hex, it returns without raising,
true iff the Ed25519 verification succeeds; with a malformed sender key
or signature (bad hex, or wrong decoded length) the underlying exception
propagates out of `verify`. -/
theorem C8_amended_verify (ed : Transaction → Bool) (t : Transaction) (s : String) :
    ((t.signature = none ∨ t.signature = some "") →
      Transaction.verify ed t = PyVerify.ok false) ∧
    (t.signature = some s → s ≠ "" → hex_key_ok t.sender = true → hex_sig_ok s = true →
      Transaction.verify ed t = PyVerify.ok (ed t)) ∧
    (t.signature = some s → s ≠ "" →
      (hex_key_ok t.sender = false ∨ hex_sig_ok s = false) →
      ∃ m, Transaction.verify ed t = PyVerify.raised m) := by
  refine ⟨?_, ?_, ?_⟩
  · rintro (h | h) <;> simp [Transaction.verify, h]
  · intro hsig hne hkey hsg
    have hk : unhexlifyLen t.sender = some 32 := by
      simpa [hex_key_ok] using hkey
    have hg : unhexlifyLen s = some 64 := by
      simpa [hex_sig_ok] using hsg
    simp [Transaction.verify, hsig, hne, hk, hg]
  · intro hsig hne hbad
    rcases hbad with hb | hb
    · have hk : unhexlifyLen t.sender ≠ some 32 := by
        simpa [hex_key_ok] using hb
      exact ⟨"VerifyKey rejects the sender key", by simp [Transaction.verify, hsig, hne, hk]⟩
    · have hg : unhexlifyLen s ≠ some 64 := by
        simpa [hex_sig_ok] using hb
      by_cases hk : unhexlifyLen t.sender = some 32
      · match hu : unhexlifyLen s with
        | none =>
          exact ⟨"hex decoding of the signature fails",
            by simp [Transaction.verify, hsig, hne, hk, hu]⟩
        | some n =>
          have hn : n ≠ 64 := by
            intro hEq
            exact hg (by rw [hu, hEq])
          exact ⟨"the signature must be exactly 64 bytes long",
            by simp [Transaction.verify, hsig, hne, hk, hu, hn]⟩
      · exact ⟨"VerifyKey rejects the sender key",
          by simp [Transaction.verify, hsig, hne, hk]⟩

/-- C8 witness: the amended rule at a well-formed transaction (64-hex
sender, 128-hex signature) with a succeeding Ed25519 outcome. -/
theorem C8_witness :
    Transaction.verify edTrue txGood = PyVerify.ok true ∧
    hex_key_ok txGood.sender = true ∧ hex_sig_ok sigGood = true :=
  ⟨(C8_amended_verify edTrue txGood sigGood).2.1 rfl (by decide) (by decide) (by decide),
   by decide, by decide⟩

/-! ## Claims C5 and C10: difficulty retargeting -/

theorem getLastD_irrel {α : Type} (t : List α) (h : t ≠ []) (d1 d2 : α) :
    t.getLastD d1 = t.getLastD d2 := by
  rw [List.getLastD_eq_getLast?, List.getLastD_eq_getLast?]
  obtain ⟨x, hx⟩ := Option.isSome_iff_exists.mp (List.getLast?_isSome.mpr h)
  rw [hx]
  rfl

theorem int_mul_two_cast_lt (x y : Int) : ((x : ℚ) * 2 < (y : ℚ)) ↔ x * 2 < y := by
  exact_mod_cast Iff.rfl

/-- C5: `adjust_difficulty` computes exactly the retarget the claim
states (with the float division `expected_time / 2` read as exact
rational division), and `mine_block` applies it, after appending, to the
extended chain with the default parameters. -/
theorem C5_adjust_difficulty_spec (tbt : Int) (ai : Nat) (minD : Int) (chain : List Block)
    (st : NodeState) (b : Block) (h : chain ≠ []) :
    adjust_difficulty tbt ai minD chain = spec_adjust_difficulty tbt ai minD chain ∧
    (mine_append st b).difficulty = adjust_difficulty 10 10 1 (st.chain ++ [b]) := by
  constructor
  · by_cases hlen : chain.length < ai + 1
    · simp only [adjust_difficulty, spec_adjust_difficulty, if_pos hlen]
      obtain ⟨x, hx⟩ := Option.isSome_iff_exists.mp (List.getLast?_isSome.mpr h)
      rw [hx, List.getLastD_eq_getLast?, hx]
      rfl
    · simp only [adjust_difficulty, spec_adjust_difficulty, if_neg hlen]
      rw [getD_length_sub_one]
      refine if_congr Iff.rfl rfl (if_congr ?_ rfl rfl)
      exact and_congr (int_mul_two_cast_lt _ _).symm Iff.rfl
  · simp only [mine_append, rebuild_balances]
    split <;> rfl

/-- C5 witness: the refinement and the retarget-after-append fact at
concrete inputs. -/
theorem C5_witness :
    adjust_difficulty 10 10 1 [bD4] = spec_adjust_difficulty 10 10 1 [bD4] ∧
    (mine_append stC1 bC2).difficulty = adjust_difficulty 10 10 1 (stC1.chain ++ [bC2]) :=
  C5_adjust_difficulty_spec 10 10 1 [bD4] stC1 bC2 (by decide)

/-- C10: on a non-empty chain the retarget moves the difficulty by at
most one from the last block's, and it never drops a difficulty that is
at least `min_difficulty` below that minimum; on an empty chain it
returns `min_difficulty`. -/
theorem C10_adjust_difficulty_bounds (tbt : Int) (ai : Nat) (minD : Int)
    (chain : List Block) :
    adjust_difficulty tbt ai minD [] = minD ∧
    (chain ≠ [] →
      |adjust_difficulty tbt ai minD chain - (chain.getLastD dummyBlock).difficulty| ≤ 1 ∧
      (minD ≤ (chain.getLastD dummyBlock).difficulty →
        minD ≤ adjust_difficulty tbt ai minD chain)) := by
  constructor
  · simp [adjust_difficulty]
  · intro h
    by_cases hlen : chain.length < ai + 1
    · simp only [adjust_difficulty, if_pos hlen]
      obtain ⟨x, hx⟩ := Option.isSome_iff_exists.mp (List.getLast?_isSome.mpr h)
      rw [hx, List.getLastD_eq_getLast?, hx]
      constructor
      · simp
      · intro hm; simpa using hm
    · simp only [adjust_difficulty, if_neg hlen]
      rw [getD_length_sub_one]
      split_ifs with h1 h2
      · constructor
        · rw [abs_le]; constructor <;> omega
        · intro hm; omega
      · have h2' := h2.2
        constructor
        · rw [abs_le]; constructor <;> omega
        · intro hm; omega
      · constructor
        · simp
        · intro hm; exact hm

/-- C10 witness: the bound and the minimum preservation at a one-block
chain of difficulty 4 with `min_difficulty = 1`. -/
theorem C10_witness :
    |adjust_difficulty 10 10 1 [bD4] - ([bD4].getLastD dummyBlock).difficulty| ≤ 1 ∧
    1 ≤ adjust_difficulty 10 10 1 [bD4] :=
  ⟨((C10_adjust_difficulty_bounds 10 10 1 [bD4]).2 (by decide)).1,
   ((C10_adjust_difficulty_bounds 10 10 1 [bD4]).2 (by decide)).2 (by decide)⟩

/-! ## Claim C7: admission atomicity -/

/-- C7: `add_transaction` either fails, returning false with the state
(mempool, balance index, chain, registries) exactly as before, or
succeeds, returning true having appended precisely the submitted
transaction to the pending pool — and it succeeds exactly when every
admission step passes. -/
theorem C7_add_transaction_atomic (v : Transaction → Bool) (now : Int) (st : NodeState)
    (tx : Transaction) :
    (add_transaction v now st tx = (false, st) ∧ ¬ admission_ok v now st tx) ∨
    (add_transaction v now st tx =
        (true, { st with pending_transactions := st.pending_transactions ++ [tx] }) ∧
      admission_ok v now st tx) := by
  unfold add_transaction admission_ok
  split_ifs with h1 h2 h3 h4
  · exact Or.inl ⟨rfl, by simp [h1]⟩
  · exact Or.inl ⟨rfl, fun hok => absurd hok.2.2.1 (not_le.mpr h3)⟩
  · exact Or.inl ⟨rfl, fun hok => absurd hok.2.2.2 (not_le.mpr h4)⟩
  · refine Or.inr ⟨rfl, ?_, h2, not_lt.mp h3, not_lt.mp h4⟩
    simpa using h1
  · exact Or.inl ⟨rfl, fun hok => absurd hok.2.1 (by simp [h2])⟩

/-- C7 witness: the dichotomy at a concrete admissible transaction lands
in the success branch, with the transaction appended. -/
theorem C7_witness :
    add_transaction edTrue 3 stC7w txC7w =
      (true, { stC7w with pending_transactions := stC7w.pending_transactions ++ [txC7w] }) ∧
    admission_ok edTrue 3 stC7w txC7w := by
  have hval : add_transaction edTrue 3 stC7w txC7w =
      (true, { stC7w with pending_transactions := stC7w.pending_transactions ++ [txC7w] }) := by
    norm_num [add_transaction, validated_tx, Transaction.from_dict, Transaction.to_dict,
      invert, dinsert, dcontains, dlookup, dgetD, get_balance, pending_spend, sender_addr,
      stC7w, txC7w, edTrue]
  rcases C7_add_transaction_atomic edTrue 3 stC7w txC7w with ⟨hf, _⟩ | ⟨_, hok⟩
  · rw [hval] at hf
    exact absurd hf (by simp)
  · exact ⟨hval, hok⟩

/-! ## Claim C9: block serialisation round trip -/

/-- Serialising a transaction, deserialising it, and serialising again
is the identity on dict forms, provided the timestamp is not the falsy
`0` (which the constructor would re-stamp with the current time). -/
theorem tx_dict_roundtrip (now : Int) (t : Transaction) (h : t.timestamp ≠ 0) :
    (Transaction.from_dict now t.to_dict).to_dict = t.to_dict := by
  unfold Transaction.to_dict Transaction.from_dict
  cases hs : t.signature with
  | none => simp [h]
  | some s => by_cases hse : s = "" <;> simp [h, hse]

theorem pairHash_length (sha : String → String) (l : List String) :
    (pairHash sha l).length = (l.length + 1) / 2 := by
  simp [pairHash]

/-- The Merkle level fold of a non-empty list of non-empty digests is
non-empty, when the digest function never returns the empty string (as
SHA-256 hex digests never are). -/
theorem merkleFold_ne_empty (sha : String → String) (hsha : ∀ s, sha s ≠ "") :
    ∀ (n : Nat) (l : List String), l ≠ [] → (∀ x ∈ l, x ≠ "") → l.length ≤ n →
      merkleFold sha l ≠ "" := by
  intro n
  induction n with
  | zero =>
    intro l hne _ hlen
    exact absurd (List.length_eq_zero.mp (Nat.le_zero.mp hlen)) hne
  | succ k ih =>
    intro l hne hmem hlen
    have hd : (l.length % 2 = 1 ∧ (dupLast l).length = l.length + 1) ∨
        (l.length % 2 = 0 ∧ (dupLast l).length = l.length) := by
      unfold dupLast
      split
      case isTrue hpar => exact Or.inl ⟨hpar, by simp⟩
      case isFalse hpar => exact Or.inr ⟨by omega, rfl⟩
    by_cases h1 : 1 < l.length
    · rw [merkleFold, dif_pos h1]
      apply ih
      · intro hnil
        have hp := pairHash_length sha (dupLast l)
        rw [hnil] at hp
        simp only [List.length_nil] at hp
        rcases hd with ⟨hpar, hdl⟩ | ⟨hpar, hdl⟩ <;> omega
      · intro x hx
        simp only [pairHash, List.mem_map, List.mem_range] at hx
        obtain ⟨i, _, rfl⟩ := hx
        exact hsha _
      · have hp := pairHash_length sha (dupLast l)
        rcases hd with ⟨hpar, hdl⟩ | ⟨hpar, hdl⟩ <;> omega
    · rw [merkleFold, dif_neg h1]
      cases l with
      | nil => exact absurd rfl hne
      | cons a t => simpa using hmem a (by simp)

/-- C9: serialise-then-deserialise preserves a block's hash.  The first
conjunct is the constructor closure making the quantifier match the
program: every block `Block.from_dict` builds satisfies
`constructor_invariant` (the current time is nonzero and the digest
function never returns the empty string, as `int(time.time())` and
SHA-256 hex digests do); mining and loading build blocks through the
same constructors.  The second conjunct is the claim: for every such
block, `from_dict (to_dict b)` has the same stored hash as `b` and the
same recomputed canonical hash. -/
theorem C9_roundtrip_preserves_hash (sha : String → String) (tdumps : TxDict → String)
    (bdumps : BlockCanon → String) (now : Int) (d : BlockDict) (b : Block) :
    (now ≠ 0 → (∀ s, sha s ≠ "") →
      (Block.from_dict sha tdumps now d).constructor_invariant) ∧
    (b.constructor_invariant →
      (Block.from_dict sha tdumps now b.to_dict).hash = b.hash ∧
      (Block.from_dict sha tdumps now b.to_dict).calculate_hash sha bdumps =
        b.calculate_hash sha bdumps) := by
  constructor
  · intro hnow hsha
    constructor
    · intro t ht
      simp only [Block.from_dict, List.mem_map] at ht
      obtain ⟨d1, _, rfl⟩ := ht
      simp only [Transaction.from_dict]
      split_ifs with h0
      · exact hnow
      · exact h0
    · show (Block.from_dict sha tdumps now d).merkle_root ≠ ""
      simp only [Block.from_dict]
      by_cases hm : d.merkle_root = ""
      · rw [if_pos hm]
        simp only [calculate_merkle_root]
        split_ifs with he
        · exact hsha ""
        · exact merkleFold_ne_empty sha hsha _ _ he
            (by
              intro x hx
              simp only [List.mem_map] at hx
              obtain ⟨t, _, rfl⟩ := hx
              exact hsha _)
            le_rfl
      · rw [if_neg hm]
        exact hm
  · intro hb
    constructor
    · rfl
    · have htx2 : ((b.transactions.map Transaction.to_dict).map
          (Transaction.from_dict now)).map Transaction.to_dict =
          b.transactions.map Transaction.to_dict := by
        rw [List.map_map, List.map_map]
        apply List.map_congr_left
        intro t ht
        simpa [Function.comp] using tx_dict_roundtrip now t (hb.1 t ht)
      simp only [Block.calculate_hash, Block.block_canon, Block.from_dict, Block.to_dict]
      rw [htx2, if_neg hb.2]

/-- C9 witness: the closure and the round trip at a concrete block with
a constructor-produced shape, with all hypotheses discharged. -/
theorem C9_witness :
    (Block.from_dict shaNE tdumps0 9 bW9.to_dict).constructor_invariant ∧
    (Block.from_dict shaNE tdumps0 9 bW9.to_dict).hash = bW9.hash ∧
    (Block.from_dict shaNE tdumps0 9 bW9.to_dict).calculate_hash shaNE bdumps0 =
      bW9.calculate_hash shaNE bdumps0 :=
  ⟨(C9_roundtrip_preserves_hash shaNE tdumps0 bdumps0 9 bW9.to_dict bW9).1
      (by decide) (fun s => by simp [shaNE]),
   (C9_roundtrip_preserves_hash shaNE tdumps0 bdumps0 9 bW9.to_dict bW9).2
      (by unfold Block.constructor_invariant; exact ⟨by decide, by decide⟩)⟩

/-! ## Claim C6: Merkle root against the reference computation -/

theorem pairHash_nil (sha : String → String) : pairHash sha [] = [] := by
  simp [pairHash]

theorem pairHash_cons (sha : String → String) (a b : String) (t : List String) :
    pairHash sha (a :: b :: t) = sha (a ++ b) :: pairHash sha t := by
  unfold pairHash
  rw [show ((a :: b :: t).length + 1) / 2 = (t.length + 1) / 2 + 1 from by
    simp only [List.length_cons]; omega]
  rw [List.range_succ_eq_map]
  simp only [List.map_cons, List.map_map]
  congr 1

theorem dupLast_cons₂ (a b : String) (t : List String) :
    dupLast (a :: b :: t) = a :: b :: dupLast t := by
  unfold dupLast
  by_cases hp : t.length % 2 = 1
  · have hp2 : (a :: b :: t).length % 2 = 1 := by simp only [List.length_cons]; omega
    rw [if_pos hp2, if_pos hp]
    have ht : t ≠ [] := by
      intro hnil
      rw [hnil] at hp
      simp at hp
    simp only [List.cons_append, List.cons.injEq, true_and]
    rw [List.getLastD_cons, List.getLastD_cons]
    rw [getLastD_irrel t ht b ""]
  · have hp2 : ¬ (a :: b :: t).length % 2 = 1 := by simp only [List.length_cons]; omega
    rw [if_neg hp2, if_neg hp]

theorem spec_level_eq_pairHash (sha : String → String) :
    ∀ l : List String, spec_level sha l = pairHash sha (dupLast l)
  | [] => by simp [spec_level, dupLast, pairHash_nil]
  | [a] => by
    have hd : dupLast [a] = [a, a] := by simp [dupLast, List.getLastD]
    rw [hd, pairHash_cons, pairHash_nil]
    simp [spec_level]
  | a :: b :: t => by
    rw [dupLast_cons₂, pairHash_cons, ← spec_level_eq_pairHash sha t]
    simp [spec_level]

theorem spec_level_length (sha : String → String) :
    ∀ l : List String, (spec_level sha l).length = (l.length + 1) / 2
  | [] => by simp [spec_level]
  | [a] => by simp [spec_level]
  | a :: b :: t => by
    simp only [spec_level, List.length_cons, spec_level_length sha t]
    omega

theorem merkleFold_eq_spec_passes (sha : String → String) :
    ∀ (n : Nat) (l : List String), l ≠ [] → l.length ≤ n →
      merkleFold sha l = (spec_passes sha n l).headD "" := by
  intro n
  induction n with
  | zero =>
    intro l hne hlen
    exact absurd (List.length_eq_zero.mp (Nat.le_zero.mp hlen)) hne
  | succ k ih =>
    intro l hne hlen
    by_cases h1 : l.length ≤ 1
    · rw [merkleFold, dif_neg (by omega)]
      simp only [spec_passes, if_pos h1]
    · rw [merkleFold, dif_pos (by omega)]
      simp only [spec_passes, if_neg h1]
      rw [← spec_level_eq_pairHash]
      apply ih
      · intro hnil
        have hl := spec_level_length sha l
        rw [hnil] at hl
        simp only [List.length_nil] at hl
        omega
      · have hl := spec_level_length sha l
        omega

/-- C6: the Merkle root computed by `calculate_merkle_root` equals the
claim's reference computation, for every digest function, serialiser and
transaction list. -/
theorem C6_merkle_root_refines_spec (sha : String → String) (tdumps : TxDict → String)
    (txs : List Transaction) :
    calculate_merkle_root sha tdumps txs = spec_merkle_root sha tdumps txs := by
  cases hL : txs.map (fun t => sha (tdumps t.to_dict)) with
  | nil => simp [calculate_merkle_root, spec_merkle_root, hL]
  | cons x xs =>
    simp only [calculate_merkle_root, spec_merkle_root, hL]
    rw [if_neg (by simp)]
    exact merkleFold_eq_spec_passes sha (x :: xs).length (x :: xs) (by simp) le_rfl

end PyChain
